import Mathlib

/-!
Verification of the omni-grid analytics repository: a shallow embedding of
the data model (tables built from record lists), the analytics engine
(`analytics.py`), the mock data generator (`mock_data.py`), the fetcher
(`data_fetcher.py`) and the orchestrator (`omni_analytics.py`), together
with theorems settling the behavioural claims about them.

Cell values are embedded as integers, rationals (Python floats) and
strings; a pandas `DataFrame` built from a list of uniformly-shaped
dictionaries is a column list plus a row list of cell lists.
-/

/-- A cell value of the in-memory table: an integer, a float (modelled as a
rational), or a string. -/
inductive Value where
  | vInt (n : Int)
  | vRat (q : ℚ)
  | vStr (s : String)
deriving DecidableEq

/-- One record, as produced by `DataFrame.to_dict('records')` and as consumed
by the `DataAnalytics` constructor: an ordered list of column/value pairs. -/
abbrev Rec := List (String × Value)

/-- The dataframe held by the analytics engine: column names plus rows of
cells, row `r` holding the cell of column `cols[j]` at position `j`. -/
structure Table where
  cols : List String
  rows : List (List Value)
deriving DecidableEq

/-- Index of the first occurrence of column `c` in the column list; `none`
when the column is absent (the `column not in self.df.columns` test). -/
def colIdx (cols : List String) (c : String) : Option Nat :=
  match cols with
  | [] => none
  | k :: ks => if k = c then some 0 else (colIdx ks c).map (· + 1)

/-- `to_dict('records')`: each row paired up with the column names. -/
def recordsOf (cols : List String) (rows : List (List Value)) : List Rec :=
  rows.map (fun r => cols.zip r)

/-- `pd.DataFrame(data)` for a list of uniformly-shaped record dictionaries:
the columns are the first record's keys, the rows its values.  (For the empty
list pandas produces a frame with no columns at all.) -/
def tableOfRecords : List Rec → Table
  | [] => ⟨[], []⟩
  | r :: rs => ⟨r.map Prod.fst, (r :: rs).map (fun x => x.map Prod.snd)⟩

/-- All records share the first record's key list, in order — the
"uniformly-shaped rows" of the spec's data model, under which
`pd.DataFrame` introduces no NaN padding. -/
def uniformRecs : List Rec → Bool
  | [] => true
  | r :: rs => rs.all (fun s => decide (s.map Prod.fst = r.map Prod.fst))

/-- A condition value of `filter_data`: a plain scalar, or a list/tuple
(which the source routes through `Series.isin`). -/
inductive CondVal where
  | scalar (v : Value)
  | values (vs : List Value)
deriving DecidableEq

/-- Does the cell `o` satisfy the condition value: `df[col] == value` for a
scalar, `df[col].isin(value)` for a list or tuple. -/
def condMatches (o : Option Value) : CondVal → Bool
  | .scalar v => decide (o = some v)
  | .values vs =>
    match o with
    | some x => decide (x ∈ vs)
    | none => false

/-- One iteration of the `filter_data` loop: conditions on absent columns
are skipped, conditions on present columns restrict the rows. -/
def filterStep (cols : List String) (rows : List (List Value))
    (cond : String × CondVal) : List (List Value) :=
  match colIdx cols cond.1 with
  | none => rows
  | some i => rows.filter (fun r => condMatches r[i]? cond.2)

/-- The `filter_data` loop over all conditions, in dictionary order. -/
def applyConds (cols : List String) (conds : List (String × CondVal))
    (rows : List (List Value)) : List (List Value) :=
  conds.foldl (filterStep cols) rows

/-- `DataAnalytics.filter_data`: fold the condition filters over a copy of
the frame and emit the surviving rows as records. -/
def Table.filter_data (t : Table) (conds : List (String × CondVal)) : List Rec :=
  recordsOf t.cols (applyConds t.cols conds t.rows)

/-- The analytics engine's state: the dataframe and the record list both
stored by `DataAnalytics.__init__`. -/
structure DataAnalytics where
  df : Table
  original_data : List Rec
deriving DecidableEq

/-- `DataAnalytics(data)`: build the frame and keep the original records. -/
def DataAnalytics.ofData (data : List Rec) : DataAnalytics :=
  ⟨tableOfRecords data, data⟩

/-- `filter_data` as called on the engine (it reads `self.df` only). -/
def DataAnalytics.filter_data (s : DataAnalytics)
    (conds : List (String × CondVal)) : List Rec :=
  Table.filter_data s.df conds

/-- The single condition test of claim C10, phrased over a record: a
condition on a column present in the table requires the record's value there
to equal the scalar, or to be a member of the list/tuple; a condition on an
absent column imposes nothing. -/
def specCondHolds (tblCols : List String) (rec : Rec)
    (cond : String × CondVal) : Bool :=
  if tblCols.contains cond.1 then
    match cond.2 with
    | .scalar v => decide (List.lookup cond.1 rec = some v)
    | .values vs =>
      match List.lookup cond.1 rec with
      | some x => decide (x ∈ vs)
      | none => false
  else true

/-- The row-level test a single filter pass enforces. -/
def condOkRow (cols : List String) (r : List Value)
    (cond : String × CondVal) : Bool :=
  match colIdx cols cond.1 with
  | none => true
  | some i => condMatches r[i]? cond.2

/-- Is the cell numeric (an `np.number` dtype member)? -/
def isNumericVal : Value → Bool
  | .vInt _ => true
  | .vRat _ => true
  | .vStr _ => false

/-- Numeric reading of a cell; `none` for strings. -/
def toRat? : Value → Option ℚ
  | .vInt n => some (n : ℚ)
  | .vRat q => some q
  | .vStr _ => none

/-- Numeric sort key of an optional cell (only read on numeric columns). -/
def toRatD (o : Option Value) : ℚ :=
  match o with
  | some (.vInt n) => (n : ℚ)
  | some (.vRat q) => q
  | _ => 0

/-- pandas gives column `c` a numeric dtype exactly when the frame has rows
and every cell of the column is a number
(`select_dtypes(include=[np.number])`); a frame without rows types its
columns as `object`. -/
def isNumericCol (t : Table) (c : String) : Bool :=
  match colIdx t.cols c with
  | none => false
  | some i =>
    !t.rows.isEmpty && t.rows.all (fun r =>
      match r[i]? with
      | some v => isNumericVal v
      | none => false)

/-- The numeric values of column `c`, in row order. -/
def colNums (t : Table) (c : String) : List ℚ :=
  match colIdx t.cols c with
  | none => []
  | some i => t.rows.filterMap (fun r => r[i]?.bind toRat?)

/-- Stable insertion into a list sorted by `le` on the key. -/
def insertByKey (le : ℚ → ℚ → Bool) (key : α → ℚ) (x : α) : List α → List α
  | [] => [x]
  | y :: ys => if le (key x) (key y) then x :: y :: ys else y :: insertByKey le key x ys

/-- Stable insertion sort by key, the order behind `sort_values`,
`nlargest` and `nsmallest` (ties keep the earlier row first). -/
def sortByKey (le : ℚ → ℚ → Bool) (key : α → ℚ) : List α → List α
  | [] => []
  | x :: xs => insertByKey le key x (sortByKey le key xs)

/-- Comparison used by `nsmallest` (ascending) and `nlargest` (descending). -/
def leOrd (asc : Bool) (x y : ℚ) : Bool :=
  if asc then decide (x ≤ y) else decide (y ≤ x)

/-- `Series.mean`; the sources only read it on nonempty numeric columns. -/
def qMean (xs : List ℚ) : ℚ := xs.sum / (xs.length : ℚ)

/-- `Series.median`: middle of the sorted values, or the average of the two
middles. -/
def qMedian (xs : List ℚ) : ℚ :=
  let s := sortByKey (fun a b => decide (a ≤ b)) id xs
  let m := s.length
  if m % 2 = 1 then s.getD (m / 2) 0
  else (s.getD (m / 2 - 1) 0 + s.getD (m / 2) 0) / 2

/-- `Series.min`. -/
def qMin (xs : List ℚ) : ℚ :=
  match xs with
  | [] => 0
  | x :: tl => tl.foldl min x

/-- `Series.max`. -/
def qMax (xs : List ℚ) : ℚ :=
  match xs with
  | [] => 0
  | x :: tl => tl.foldl max x

/-- Sample variance with one delta degree of freedom.  The source reports
`std`, its square root, which is irrational in general, so the embedding
carries the square.  (On a single observation pandas reports NaN.) -/
def qVar (xs : List ℚ) : ℚ :=
  (xs.map (fun x => (x - qMean xs) ^ 2)).sum / ((xs.length : ℚ) - 1)

/-- The per-column entry of `get_summary_statistics`. -/
structure SummaryStats where
  mean : ℚ
  median : ℚ
  stdSq : ℚ
  min : ℚ
  max : ℚ
  count : Nat
deriving DecidableEq

/-- `get_summary_statistics`: one entry per numeric column, in column
order. -/
def Table.get_summary_statistics (t : Table) : List (String × SummaryStats) :=
  (t.cols.filter (isNumericCol t)).map (fun c =>
    (c, ⟨qMean (colNums t c), qMedian (colNums t c), qVar (colNums t c),
      qMin (colNums t c), qMax (colNums t c), (colNums t c).length⟩))

/-- First-occurrence deduplication (the key sets of `value_counts` and
`groupby`). -/
def uniqBy [DecidableEq α] : List α → List α
  | [] => []
  | v :: vs => v :: (uniqBy vs).filter (fun w => decide (w ≠ v))

/-- `get_categorical_distribution`: value counts of the column, most common
first (`value_counts` sorts by count, descending); an absent column gives an
empty mapping. -/
def Table.get_categorical_distribution (t : Table) (column : String) :
    List (Value × Nat) :=
  match colIdx t.cols column with
  | none => []
  | some i =>
    let vals := t.rows.filterMap (fun r => r[i]?)
    sortByKey (fun a b => decide (b ≤ a)) (fun kv => (kv.2 : ℚ))
      ((uniqBy vals).map (fun k => (k, vals.count k)))

/-- Covariance of two paired columns with one delta degree of freedom. -/
def qCov (xs ys : List ℚ) : ℚ :=
  ((xs.zip ys).map (fun p => (p.1 - qMean xs) * (p.2 - qMean ys))).sum
    / ((xs.length : ℚ) - 1)

/-- `get_correlation_matrix`: `None` when the numeric sub-frame is empty;
otherwise, for each ordered pair of numeric columns, the covariance together
with the product of the two variances.  The source reports the Pearson
coefficient cov/sqrt(varx·vary); the square root is irrational in general,
so the embedding returns its rational ingredients. -/
def Table.get_correlation_matrix (t : Table) :
    Option (List (String × List (String × (ℚ × ℚ)))) :=
  let nc := t.cols.filter (isNumericCol t)
  if nc.isEmpty then none
  else some (nc.map (fun a =>
    (a, nc.map (fun b => (b, (qCov (colNums t a) (colNums t b),
      qVar (colNums t a) * qVar (colNums t b)))))))

deriving instance DecidableEq for Except

/-- Did the call return normally (no Python exception escaped)? -/
def exceptOk : Except String α → Bool
  | .ok _ => true
  | .error _ => false

/-- Run a fallible step over a list, stopping at the first raised error. -/
def mapME (f : α → Except String β) : List α → Except String (List β)
  | [] => .ok []
  | x :: xs =>
    match f x with
    | .error e => .error e
    | .ok y =>
      match mapME f xs with
      | .error e => .error e
      | .ok ys => .ok (y :: ys)

/-- The aggregation names the orchestrator and the docstring use. -/
inductive AggFunc where
  | sum
  | mean
  | count
deriving DecidableEq

/-- Python `+` on cells: numbers add (ints promote to floats when mixed),
strings concatenate, and a mixed pair raises `TypeError`. -/
def vAdd : Value → Value → Except String Value
  | .vInt a, .vInt b => .ok (.vInt (a + b))
  | .vInt a, .vRat b => .ok (.vRat ((a : ℚ) + b))
  | .vRat a, .vInt b => .ok (.vRat (a + (b : ℚ)))
  | .vRat a, .vRat b => .ok (.vRat (a + b))
  | .vStr a, .vStr b => .ok (.vStr (a ++ b))
  | _, _ => .error "TypeError: unsupported operand types"

/-- Sum of a group's cells.  (Addition of cells of one dtype is associative,
so the fold direction does not show in the result.) -/
def vSum : List Value → Except String Value
  | [] => .error "empty group"
  | [v] => .ok v
  | v :: w :: tl =>
    match vSum (w :: tl) with
    | .ok s => vAdd v s
    | .error e => .error e

/-- One aggregation over one group's values: `sum` reduces with `+`,
`count` counts, `mean` needs a numeric column and raises `TypeError`
otherwise. -/
def aggApply (f : AggFunc) (vals : List Value) : Except String Value :=
  match f with
  | .sum => vSum vals
  | .count => .ok (.vInt vals.length)
  | .mean =>
    if vals.all isNumericVal then
      .ok (.vRat ((vals.filterMap toRat?).sum / (vals.length : ℚ)))
    else .error "TypeError: could not convert values to numeric"

/-- `aggregate_by_category`: group by the category column and aggregate the
value column per group; either column absent gives an empty mapping.  (The
source sorts group keys; key order does not affect the dictionary it
returns, and the embedding keeps first-appearance order.) -/
def Table.aggregate_by_category (t : Table) (category_col value_col : String)
    (agg_func : AggFunc) : Except String (List (Value × Value)) :=
  match colIdx t.cols category_col, colIdx t.cols value_col with
  | some ci, some vi =>
    mapME (fun k =>
      match aggApply agg_func
          ((t.rows.filter (fun r => decide (r[ci]? = some k))).filterMap
            (fun r => r[vi]?)) with
      | .ok v => .ok (k, v)
      | .error e => .error e)
      (uniqBy (t.rows.filterMap (fun r => r[ci]?)))
  | _, _ => .ok []

/-- Sort key of a row: the numeric cell at the column index. -/
def rowKey (i : Nat) (r : List Value) : ℚ := toRatD r[i]?

/-- `get_top_n`: an absent column gives `[]`; `nlargest`/`nsmallest` sort a
numeric column (descending resp. ascending, earlier rows first on ties) and
keep `n` rows; on a non-numeric column they raise `TypeError`. -/
def Table.get_top_n (t : Table) (column : String) (n : Nat) (ascending : Bool) :
    Except String (List Rec) :=
  match colIdx t.cols column with
  | none => .ok []
  | some i =>
    if isNumericCol t column then
      .ok (recordsOf t.cols ((sortByKey (leOrd ascending) (rowKey i) t.rows).take n))
    else .error "TypeError: cannot use nlargest with this dtype"

/-- Linear-interpolation quantile of a sample (the numpy default). -/
def quantileQ (xs : List ℚ) (q : ℚ) : ℚ :=
  let s := sortByKey (fun a b => decide (a ≤ b)) id xs
  match s with
  | [] => 0
  | x :: _ =>
    let h := q * ((s.length : ℚ) - 1)
    let lo := (Int.floor h).toNat
    let a := s.getD lo x
    let b := s.getD (lo + 1) a
    a + (h - (Int.floor h : ℚ)) * (b - a)

/-- `get_percentiles`: an absent column gives an empty mapping before any
quantile is attempted; otherwise one `p…` entry per requested percentile.
`Series.quantile` raises `TypeError` on a non-numeric column and
`ValueError` on a fraction outside the unit range. -/
def Table.get_percentiles (t : Table) (column : String) (ps : List ℚ) :
    Except String (List (String × ℚ)) :=
  match colIdx t.cols column with
  | none => .ok []
  | some _ =>
    mapME (fun p =>
      if isNumericCol t column then
        if 0 ≤ p / 100 ∧ p / 100 ≤ 1 then
          .ok ("p" ++ toString p, quantileQ (colNums t column) (p / 100))
        else .error "ValueError: percentiles must lie between 0 and 1"
      else .error "TypeError: cannot perform quantile against object dtype") ps

/-- The mapping `get_data_quality_report` returns. -/
structure QualityReport where
  total_rows : Nat
  total_columns : Nat
  missing_values : List (String × Nat)
  duplicate_rows : Nat
  column_types : List (String × String)
deriving DecidableEq

/-- pandas dtype name of a column: `int64` when every cell is an integer,
`float64` when numeric with some float, `object` otherwise. -/
def dtypeName (cells : List Value) : String :=
  if cells.all (fun v => match v with | .vInt _ => true | _ => false) then "int64"
  else if cells.all isNumericVal then "float64"
  else "object"

/-- `get_data_quality_report`: row/column counts, per-column null counts,
the number of duplicated rows (`duplicated().sum()` counts every occurrence
after the first) and the dtype names. -/
def Table.get_data_quality_report (t : Table) : QualityReport :=
  ⟨t.rows.length, t.cols.length,
    (t.cols.enum).map (fun p =>
      (p.2, (t.rows.filter (fun r => decide (r[p.1]? = none))).length)),
    t.rows.length - (uniqBy t.rows).length,
    (t.cols.enum).map (fun p => (p.2, dtypeName (t.rows.filterMap (fun r => r[p.1]?))))⟩

/-- Every row has one cell per column — always true of frames built from
uniform records. -/
def Table.wf (t : Table) : Bool :=
  t.rows.all (fun r => decide (r.length = t.cols.length))

/-- The column value a returned record sorts by, as claim C3 reads it. -/
def recKeyQ (column : String) (rec : Rec) : ℚ := toRatD (List.lookup column rec)

/-- Modelled: Python's `random` module, a deterministic stream of draws
fixed by `random.seed(seed)`.  The exact Mersenne Twister outputs are
irrelevant to the claims, which concern determinism and what depends on the
seed versus the wall clock, so a 64-bit linear congruential generator stands
in for the twister. -/
structure PyRandom where
  state : Nat
deriving DecidableEq

/-- `random.seed(seed)` as run by `MockDataGenerator.__init__`. -/
def PyRandom.seedGen (seed : Nat) : PyRandom := ⟨seed % 2 ^ 64⟩

/-- One raw 32-bit draw. -/
def PyRandom.next (g : PyRandom) : Nat × PyRandom :=
  let s := (6364136223846793005 * g.state + 1442695040888963407) % 2 ^ 64
  (s / 2 ^ 32, ⟨s⟩)

/-- Draw a natural number below `n`. -/
def PyRandom.randbelow (g : PyRandom) (n : Nat) : Nat × PyRandom :=
  let p := g.next
  (p.1 % n, p.2)

/-- `random.randint(a, b)`: both ends inclusive. -/
def PyRandom.randint (g : PyRandom) (a b : Int) : Int × PyRandom :=
  let p := g.randbelow (b - a + 1).toNat
  (a + p.1, p.2)

/-- `random.uniform(a, b)`. -/
def PyRandom.uniform (g : PyRandom) (a b : ℚ) : ℚ × PyRandom :=
  let p := g.next
  (a + (b - a) * ((p.1 : ℚ) / 2 ^ 32), p.2)

/-- `random.choice(seq)` for the generator's string palettes. -/
def PyRandom.choice (g : PyRandom) (l : List String) : String × PyRandom :=
  let p := g.randbelow l.length
  (l.getD p.1 "", p.2)

/-- Python `round(x, digits)` (float banker's rounding modelled as
round-half-up; no claim depends on the rounded values). -/
def roundTo (q : ℚ) (digits : Nat) : ℚ :=
  (Int.floor (q * 10 ^ digits + 1 / 2) : ℚ) / 10 ^ digits

/-- The palettes of `generate_grid_data`. -/
def categories : List String := ["A", "B", "C", "D", "E"]

/-- Region palette. -/
def regions : List String := ["North", "South", "East", "West", "Central"]

/-- Status palette. -/
def statuses : List String := ["Active", "Inactive", "Pending", "Completed"]

/-- Priority palette. -/
def priorities : List String := ["High", "Medium", "Low"]

/-- One row of `generate_grid_data`, fields in source order.  Dates are
modelled as whole days since an epoch; `isoformat` is injective on
datetimes, so equality of the emitted timestamp strings is equality of these
integers.  `base` is `base_date = datetime.now() - timedelta(days=365)`. -/
def genRow (i : Nat) (base : Int) (g0 : PyRandom) : Rec × PyRandom :=
  let c := g0.choice categories
  let rg := c.2.choice regions
  let st := rg.2.choice statuses
  let v := st.2.uniform 10 1000
  let qn := v.2.randint 1 100
  let sc := qn.2.uniform 0 100
  let ts := sc.2.randint 0 365
  let pr := ts.2.choice priorities
  let ef := pr.2.uniform (1 / 2) 1
  let co := ef.2.uniform 100 5000
  let rev := co.2.uniform 150 6000
  ([("id", .vInt (i + 1)),
    ("category", .vStr c.1),
    ("region", .vStr rg.1),
    ("status", .vStr st.1),
    ("value", .vRat (roundTo v.1 2)),
    ("quantity", .vInt qn.1),
    ("score", .vRat (roundTo sc.1 2)),
    ("timestamp", .vInt (base + ts.1)),
    ("priority", .vStr pr.1),
    ("efficiency", .vRat (roundTo ef.1 3)),
    ("cost", .vRat (roundTo co.1 2)),
    ("revenue", .vRat (roundTo rev.1 2))],
   rev.2)

/-- The generation loop, threading the random state through the rows. -/
def genRows (i : Nat) (base : Int) (g : PyRandom) : Nat → List Rec
  | 0 => []
  | k + 1 =>
    let p := genRow i base g
    p.1 :: genRows (i + 1) base p.2 k

/-- `MockDataGenerator(seed).generate_grid_data(num_rows)`, with the wall
clock an explicit argument: `now` is the day `datetime.now()` falls on and
`base_date` is `now - 365` days. -/
def generate_grid_data (seed : Nat) (now : Int) (num_rows : Nat) : List Rec :=
  genRows 0 (now - 365) (PyRandom.seedGen seed) num_rows

/-- Erase the one generated field that depends on the wall clock. -/
def dropTimestamp (rec : Rec) : Rec :=
  rec.filter (fun kv => decide (kv.1 ≠ "timestamp"))

/-- A JSON document (the fetcher hands the parsed body over opaquely). -/
inductive Json where
  | jnull
  | jnum (q : ℚ)
  | jstr (s : String)
  | jarr (elems : List Json)
  | jobj (fields : List (String × Json))

/-- What the GET produced: a low-level failure (connection error, timeout —
a `requests.exceptions.RequestException`), or a response carrying a status
code and a body that either parses as JSON or does not. -/
inductive NetResult where
  | response (status : Nat) (bodyJson : Option Json)
  | netError (msg : String)

/-- `OmniGridFetcher.fetch_data`: `raise_for_status` raises on 4xx/5xx,
which is caught like every other `RequestException` and turned into `None`
after a printed diagnostic; an unparseable body's `JSONDecodeError` is
likewise caught and turned into `None`; otherwise the parsed body is
returned. -/
def fetch_data (r : NetResult) : Option Json :=
  match r with
  | .netError _ => none
  | .response status body =>
    if 400 ≤ status then none
    else
      match body with
      | some j => some j
      | none => none

/-- The orchestrator's observable outcome of `load_data`: the returned
boolean, `self.data` and `self.analytics`. -/
structure LoadResult where
  success : Bool
  data : List Rec
  analytics : Option DataAnalytics
deriving DecidableEq

/-- `OmniGridAnalyticsTool.load_data`, with the environment explicit:
`healthOk` is what `health_check` returns, `fetchResult` what
`fetch_grid_data` would return, and the mock generator is the seeded
generator read at wall-clock `now`.  An empty record list is falsy in
Python, so `if self.data:` fails on it: no analytics engine and `False`. -/
def load_data (healthOk : Bool) (fetchResult : Option (List Rec))
    (use_mock_data : Bool) (seed : Nat) (now : Int) (num_records : Nat) :
    LoadResult :=
  let d : List Rec :=
    if use_mock_data then generate_grid_data seed now num_records
    else if healthOk = false then generate_grid_data seed now num_records
    else
      match fetchResult with
      | some l => if l.isEmpty then generate_grid_data seed now num_records else l
      | none => generate_grid_data seed now num_records
  if d.isEmpty then ⟨false, d, none⟩
  else ⟨true, d, some (DataAnalytics.ofData d)⟩

/-- `get_summary_statistics` in state-passing form: the body computes from
`self.df` and assigns no attribute, so the state after the call is the state
before it.  The same holds for every query method below (`filter_data`
works on `self.df.copy()`). -/
def DataAnalytics.get_summary_statisticsM (s : DataAnalytics) :
    List (String × SummaryStats) × DataAnalytics :=
  (s.df.get_summary_statistics, s)

/-- `get_categorical_distribution` in state-passing form. -/
def DataAnalytics.get_categorical_distributionM (s : DataAnalytics)
    (column : String) : List (Value × Nat) × DataAnalytics :=
  (s.df.get_categorical_distribution column, s)

/-- `get_correlation_matrix` in state-passing form. -/
def DataAnalytics.get_correlation_matrixM (s : DataAnalytics) :
    Option (List (String × List (String × (ℚ × ℚ)))) × DataAnalytics :=
  (s.df.get_correlation_matrix, s)

/-- `aggregate_by_category` in state-passing form. -/
def DataAnalytics.aggregate_by_categoryM (s : DataAnalytics)
    (category_col value_col : String) (agg_func : AggFunc) :
    Except String (List (Value × Value)) × DataAnalytics :=
  (s.df.aggregate_by_category category_col value_col agg_func, s)

/-- `get_top_n` in state-passing form. -/
def DataAnalytics.get_top_nM (s : DataAnalytics) (column : String) (n : Nat)
    (ascending : Bool) : Except String (List Rec) × DataAnalytics :=
  (s.df.get_top_n column n ascending, s)

/-- `filter_data` in state-passing form: the loop rebinds a local copy. -/
def DataAnalytics.filter_dataM (s : DataAnalytics)
    (conds : List (String × CondVal)) : List Rec × DataAnalytics :=
  let filtered_df := applyConds s.df.cols conds s.df.rows
  (recordsOf s.df.cols filtered_df, s)

/-- `get_percentiles` in state-passing form. -/
def DataAnalytics.get_percentilesM (s : DataAnalytics) (column : String)
    (ps : List ℚ) : Except String (List (String × ℚ)) × DataAnalytics :=
  (s.df.get_percentiles column ps, s)

/-- `get_data_quality_report` in state-passing form. -/
def DataAnalytics.get_data_quality_reportM (s : DataAnalytics) :
    QualityReport × DataAnalytics :=
  (s.df.get_data_quality_report, s)

/-- Absent columns are exactly those `colIdx` fails on. -/
theorem colIdx_none_iff (cols : List String) (c : String) :
    colIdx cols c = none ↔ cols.contains c = false := by
  induction cols with
  | nil => simp [colIdx]
  | cons k ks ih =>
    by_cases hk : k = c
    · simp [colIdx, hk, List.contains_cons]
    · simp [colIdx, hk, ih, List.contains_cons]
      exact fun _ hc => hk hc.symm

/-- Looking a column up in a zipped record reads the cell at the column's
index (both sides are `none` when the row is too short). -/
theorem lookup_zip_colIdx (cols : List String) (row : List Value) (c : String)
    (i : Nat) (h : colIdx cols c = some i) :
    List.lookup c (cols.zip row) = row[i]? := by
  induction cols generalizing row i with
  | nil => simp [colIdx] at h
  | cons k ks ih =>
    cases row with
    | nil => simp [List.lookup]
    | cons w ws =>
      by_cases hk : k = c
      · simp [colIdx, hk] at h
        subst hk
        simp [← h, List.lookup]
      · simp [colIdx, hk] at h
        obtain ⟨j, hj, rfl⟩ := h
        have : (c == k) = false := by
          simp only [beq_eq_false_iff_ne, ne_eq]
          exact fun hc => hk hc.symm
        simp only [List.zip_cons_cons, List.lookup, this, List.getElem?_cons_succ]
        exact ih ws j hj

/-- Rebuilding a record from its keys and values. -/
theorem zip_keys_vals (rec : Rec) (ks : List String)
    (h : rec.map Prod.fst = ks) : ks.zip (rec.map Prod.snd) = rec := by
  subst h
  exact (List.zip_of_prod rfl rfl).symm

/-- In a uniform record list every record has the first record's keys. -/
theorem uniform_keys {r₀ : Rec} {d : List Rec}
    (h : uniformRecs (r₀ :: d) = true) {rec : Rec} (hm : rec ∈ r₀ :: d) :
    rec.map Prod.fst = r₀.map Prod.fst := by
  rcases List.mem_cons.mp hm with rfl | hmem
  · rfl
  · have := List.all_eq_true.mp h rec hmem
    exact of_decide_eq_true this

/-- A map that fixes every member is the identity. -/
theorem map_eq_self_of {l : List α} {f : α → α} (h : ∀ a ∈ l, f a = a) :
    l.map f = l := by
  induction l with
  | nil => rfl
  | cons x xs ih => simp [h x (List.mem_cons_self x xs), ih fun a ha => h a (List.mem_cons_of_mem _ ha)]

/-- One pass of the filter loop is a plain `filter` by the single-condition
row test. -/
theorem filterStep_eq (cols : List String) (rows : List (List Value))
    (cond : String × CondVal) :
    filterStep cols rows cond = rows.filter (fun r => condOkRow cols r cond) := by
  unfold filterStep condOkRow
  cases colIdx cols cond.1 with
  | none => simp
  | some i => rfl

/-- The whole `filter_data` loop keeps exactly the rows passing every
condition's row test. -/
theorem applyConds_eq (cols : List String) (conds : List (String × CondVal))
    (rows : List (List Value)) :
    applyConds cols conds rows
      = rows.filter (fun r => conds.all (condOkRow cols r)) := by
  induction conds generalizing rows with
  | nil => simp [applyConds]
  | cons c cs ih =>
    have step : applyConds cols (c :: cs) rows
        = applyConds cols cs (filterStep cols rows c) := rfl
    rw [step, ih, filterStep_eq, List.filter_filter]
    refine List.filter_congr fun r _ => ?_
    simp [List.all_cons, Bool.and_comm]

/-- On a record whose keys are the table's columns, the row-level test of one
filter pass agrees with the record-level condition test. -/
theorem condOkRow_eq_spec (ks : List String) (rec : Rec)
    (h : rec.map Prod.fst = ks) (cond : String × CondVal) :
    condOkRow ks (rec.map Prod.snd) cond = specCondHolds ks rec cond := by
  unfold condOkRow specCondHolds
  cases hidx : colIdx ks cond.1 with
  | none =>
    have hc := (colIdx_none_iff ks cond.1).mp hidx
    rw [if_neg (by simp only [hc]; exact Bool.false_ne_true)]
  | some i =>
    have hcont : ks.contains cond.1 = true := by
      cases hcc : ks.contains cond.1
      · exact absurd ((colIdx_none_iff ks cond.1).mpr hcc) (by simp [hidx])
      · rfl
    have hlk : List.lookup cond.1 rec = (rec.map Prod.snd)[i]? := by
      conv_lhs => rw [← zip_keys_vals rec ks h]
      exact lookup_zip_colIdx ks (rec.map Prod.snd) cond.1 i hidx
    rw [if_pos hcont, hlk]
    cases cond.2 <;> rfl

/-- `List.all` only depends on the predicate's values on the members. -/
theorem all_congr_of {l : List α} {p q : α → Bool} (h : ∀ a ∈ l, p a = q a) :
    l.all p = l.all q := by
  induction l with
  | nil => rfl
  | cons x xs ih =>
    simp [List.all_cons, h x (List.mem_cons_self x xs),
      ih fun a ha => h a (List.mem_cons_of_mem _ ha)]

/-- `filter_data` on a uniform record list keeps exactly the records passing
every condition, in their original order. -/
theorem filter_data_records (d : List Rec) (conds : List (String × CondVal))
    (h : uniformRecs d = true) :
    (DataAnalytics.ofData d).filter_data conds
      = d.filter (fun rec => conds.all (specCondHolds (tableOfRecords d).cols rec)) := by
  cases d with
  | nil =>
    simp [DataAnalytics.ofData, DataAnalytics.filter_data, Table.filter_data,
      tableOfRecords, applyConds_eq, recordsOf]
  | cons r rs =>
    show recordsOf (r.map Prod.fst)
        (applyConds (r.map Prod.fst) conds ((r :: rs).map (fun x => x.map Prod.snd))) = _
    rw [applyConds_eq]
    unfold recordsOf
    rw [List.filter_map, List.map_map]
    simp only [Function.comp_def]
    have hkeys : ∀ rec ∈ r :: rs, rec.map Prod.fst = r.map Prod.fst :=
      fun rec hm => uniform_keys h hm
    rw [map_eq_self_of (fun rec hrec =>
      zip_keys_vals rec _ (hkeys rec (List.mem_filter.mp hrec).1))]
    refine List.filter_congr fun rec hm => ?_
    show conds.all (condOkRow (r.map Prod.fst) (rec.map Prod.snd))
        = conds.all (specCondHolds (tableOfRecords (r :: rs)).cols rec)
    exact all_congr_of fun cond _ => condOkRow_eq_spec _ rec (hkeys rec hm) cond

/-- A record list whose members all come from a uniform list is uniform. -/
theorem uniform_of_mem {d d' : List Rec} (h : uniformRecs d = true)
    (hs : ∀ x ∈ d', x ∈ d) : uniformRecs d' = true := by
  cases d' with
  | nil => rfl
  | cons r' rs' =>
    cases d with
    | nil => exact absurd (hs r' (List.mem_cons_self r' rs')) (by simp)
    | cons r rs =>
      have hk : ∀ x ∈ r' :: rs', x.map Prod.fst = r.map Prod.fst :=
        fun x hx => uniform_keys h (hs x hx)
      simp only [uniformRecs, List.all_eq_true, decide_eq_true_eq]
      intro s hsmem
      rw [hk s (List.mem_cons_of_mem _ hsmem), hk r' (List.mem_cons_self r' rs')]

/-- Claim C2: for every (uniformly-shaped) record list and condition
mapping, `filter_data` is idempotent — constructing `DataAnalytics` from the
result of `DataAnalytics(d).filter_data(c)` and applying `filter_data(c)`
again returns the record list of the first application unchanged. -/
theorem c2_filter_idempotent (d : List Rec) (conds : List (String × CondVal))
    (h : uniformRecs d = true) :
    (DataAnalytics.ofData ((DataAnalytics.ofData d).filter_data conds)).filter_data conds
      = (DataAnalytics.ofData d).filter_data conds := by
  have hrec := filter_data_records d conds h
  have hsub : ∀ x ∈ (DataAnalytics.ofData d).filter_data conds, x ∈ d := by
    intro x hx
    rw [hrec] at hx
    exact (List.mem_filter.mp hx).1
  have hu1 := uniform_of_mem h hsub
  rw [filter_data_records _ conds hu1]
  cases hcase : (DataAnalytics.ofData d).filter_data conds with
  | nil => simp
  | cons y ys =>
    cases d with
    | nil =>
      exact absurd (hsub y (by rw [hcase]; exact List.mem_cons_self y ys)) (by simp)
    | cons r rs =>
      have hy : y ∈ r :: rs := hsub y (by rw [hcase]; exact List.mem_cons_self y ys)
      have hcols : (tableOfRecords (y :: ys)).cols = (tableOfRecords (r :: rs)).cols := by
        show y.map Prod.fst = r.map Prod.fst
        exact uniform_keys h hy
      rw [hcols, ← hcase]
      refine List.filter_eq_self.mpr ?_
      intro a ha
      rw [hrec] at ha
      exact (List.mem_filter.mp ha).2

/-- Witness for C2 at a concrete record list and condition. -/
theorem c2_filter_idempotent_witness :
    (DataAnalytics.ofData ((DataAnalytics.ofData
        [[("a", Value.vInt 1)], [("a", Value.vInt 2)]]).filter_data
        [("a", CondVal.scalar (Value.vInt 2))])).filter_data
        [("a", CondVal.scalar (Value.vInt 2))]
      = (DataAnalytics.ofData
        [[("a", Value.vInt 1)], [("a", Value.vInt 2)]]).filter_data
        [("a", CondVal.scalar (Value.vInt 2))] :=
  c2_filter_idempotent _ _ (by decide)

/-- Claim C10: on a (uniformly-shaped) record list, `filter_data` returns a
subsequence of the input records — each kept record in its original relative
position — containing exactly the records whose value in each condition
column present in the table equals the condition's scalar, or is a member of
its list/tuple value. -/
theorem c10_filter_order_membership (d : List Rec)
    (conds : List (String × CondVal)) (h : uniformRecs d = true) :
    ((DataAnalytics.ofData d).filter_data conds).Sublist d ∧
    (DataAnalytics.ofData d).filter_data conds
      = d.filter (fun rec => conds.all (specCondHolds (tableOfRecords d).cols rec)) := by
  have hmain := filter_data_records d conds h
  exact ⟨hmain ▸ List.filter_sublist d, hmain⟩

/-- Witness for C10 at a concrete record list and condition. -/
theorem c10_filter_order_membership_witness :
    (((DataAnalytics.ofData [[("a", Value.vInt 1)], [("a", Value.vInt 2)]]).filter_data
        [("a", CondVal.values [Value.vInt 2, Value.vInt 5])]).Sublist
      [[("a", Value.vInt 1)], [("a", Value.vInt 2)]]) ∧
    (DataAnalytics.ofData [[("a", Value.vInt 1)], [("a", Value.vInt 2)]]).filter_data
        [("a", CondVal.values [Value.vInt 2, Value.vInt 5])]
      = [[("a", Value.vInt 1)], [("a", Value.vInt 2)]].filter
          (fun rec => [("a", CondVal.values [Value.vInt 2, Value.vInt 5])].all
            (specCondHolds (tableOfRecords
              [[("a", Value.vInt 1)], [("a", Value.vInt 2)]]).cols rec)) :=
  c10_filter_order_membership _ _ (by decide)

/-- Claim C4: the summary-statistics mapping has a key for each numeric
column and none for a non-numeric column; with no numeric columns it is
empty. -/
theorem c4_summary_numeric_columns (t : Table) :
    (∀ c, (∃ st, (c, st) ∈ Table.get_summary_statistics t)
        ↔ (c ∈ t.cols ∧ isNumericCol t c = true)) ∧
    (t.cols.filter (isNumericCol t) = [] → Table.get_summary_statistics t = []) := by
  constructor
  · intro c
    constructor
    · rintro ⟨st, hst⟩
      unfold Table.get_summary_statistics at hst
      obtain ⟨c', hc', heq⟩ := List.mem_map.mp hst
      obtain ⟨rfl, -⟩ := Prod.mk.injEq .. ▸ heq
      exact List.mem_filter.mp hc'
    · rintro ⟨hmem, hnum⟩
      unfold Table.get_summary_statistics
      exact ⟨_, List.mem_map.mpr ⟨c, List.mem_filter.mpr ⟨hmem, hnum⟩, rfl⟩⟩
  · intro hempty
    unfold Table.get_summary_statistics
    rw [hempty]
    rfl

/-- Witness for C4: a numeric column of a concrete table has an entry. -/
theorem c4_summary_numeric_columns_witness :
    ∃ st, ("v", st) ∈ Table.get_summary_statistics
      (tableOfRecords [[("v", Value.vInt 3), ("w", Value.vStr "a")]]) :=
  ((c4_summary_numeric_columns _).1 "v").mpr (by decide)

/-- Claim C6: operations named with an absent column degrade to their
empty/default result: empty mappings for the distribution, the aggregation
(in either argument position) and the percentiles, an empty list for top-N,
and for `filter_data` the condition on the absent column is skipped, so the
unfiltered records come back — the default result. -/
theorem c6_absent_column_defaults (t : Table) (col cat : String) (v : CondVal)
    (n : Nat) (asc : Bool) (f : AggFunc) (ps : List ℚ)
    (h : t.cols.contains col = false) :
    Table.get_categorical_distribution t col = [] ∧
    Table.aggregate_by_category t col cat f = .ok [] ∧
    Table.aggregate_by_category t cat col f = .ok [] ∧
    Table.get_top_n t col n asc = .ok [] ∧
    Table.get_percentiles t col ps = .ok [] ∧
    Table.filter_data t [(col, v)] = recordsOf t.cols t.rows := by
  have hidx : colIdx t.cols col = none := (colIdx_none_iff t.cols col).mpr h
  refine ⟨?_, ?_, ?_, ?_, ?_, ?_⟩
  · unfold Table.get_categorical_distribution
    rw [hidx]
  · unfold Table.aggregate_by_category
    rw [hidx]
  · unfold Table.aggregate_by_category
    rw [hidx]
    cases colIdx t.cols cat <;> rfl
  · unfold Table.get_top_n
    rw [hidx]
  · unfold Table.get_percentiles
    rw [hidx]
  · unfold Table.filter_data
    show recordsOf t.cols (filterStep t.cols t.rows (col, v)) = _
    unfold filterStep
    rw [hidx]

/-- Witness for C6 at a concrete table and absent column. -/
theorem c6_absent_column_defaults_witness :
    Table.get_categorical_distribution (tableOfRecords [[("a", Value.vInt 1)]]) "z" = [] ∧
    Table.aggregate_by_category (tableOfRecords [[("a", Value.vInt 1)]]) "z" "a" .sum = .ok [] ∧
    Table.aggregate_by_category (tableOfRecords [[("a", Value.vInt 1)]]) "a" "z" .sum = .ok [] ∧
    Table.get_top_n (tableOfRecords [[("a", Value.vInt 1)]]) "z" 1 false = .ok [] ∧
    Table.get_percentiles (tableOfRecords [[("a", Value.vInt 1)]]) "z" [50] = .ok [] ∧
    Table.filter_data (tableOfRecords [[("a", Value.vInt 1)]])
        [("z", CondVal.scalar (Value.vInt 1))]
      = recordsOf (tableOfRecords [[("a", Value.vInt 1)]]).cols
          (tableOfRecords [[("a", Value.vInt 1)]]).rows :=
  c6_absent_column_defaults _ "z" "a" (CondVal.scalar (Value.vInt 1)) 1 false
    .sum [50] (by decide)

/-- Claim C8: `fetch_data` hands back the parsed JSON body of a
non-error-status response, and returns `None` — propagating nothing — on a
network-level failure, on an HTTP error status (which `raise_for_status`
turns into a caught exception), and on a body that fails to decode. -/
theorem c8_fetch_error_handling (status : Nat) (j : Json) (msg : String) :
    (status < 400 → fetch_data (.response status (some j)) = some j) ∧
    fetch_data (.netError msg) = none ∧
    (∀ s, fetch_data (.response s none) = none) ∧
    (400 ≤ status → ∀ b, fetch_data (.response status b) = none) := by
  refine ⟨?_, rfl, ?_, ?_⟩
  · intro hlt
    simp only [fetch_data]
    rw [if_neg (by omega)]
  · intro s
    simp only [fetch_data]
    by_cases hs : 400 ≤ s
    · rw [if_pos hs]
    · rw [if_neg hs]
  · intro hge b
    simp only [fetch_data]
    rw [if_pos hge]


/-- Witness for C8 at concrete statuses and bodies. -/
theorem c8_fetch_error_handling_witness :
    fetch_data (.response 200 (some .jnull)) = some .jnull ∧
    fetch_data (.netError "connection timed out") = none ∧
    fetch_data (.response 200 none) = none ∧
    fetch_data (.response 404 (some .jnull)) = none :=
  ⟨(c8_fetch_error_handling 200 .jnull "connection timed out").1 (by decide),
   (c8_fetch_error_handling 200 .jnull "connection timed out").2.1,
   (c8_fetch_error_handling 200 .jnull "connection timed out").2.2.1 200,
   (c8_fetch_error_handling 404 .jnull "connection timed out").2.2.2 (by decide) (some .jnull)⟩

/-- The generation loop produces one row per requested row. -/
theorem genRows_length (base : Int) (g : PyRandom) (k : Nat) :
    ∀ i, (genRows i base g k).length = k := by
  induction k generalizing g with
  | zero => intro i; rfl
  | succ k ih =>
    intro i
    show ((genRow i base g).1 :: genRows (i + 1) base (genRow i base g).2 k).length = k + 1
    rw [List.length_cons, ih]

/-- Amended claim C5: when the health check fails and mock data was not
requested, `load_data` falls back to the seeded generator, produces exactly
the requested number of mock records, initialises the analytics engine on
them and returns `True` — provided the requested count is positive.  (A
requested count of zero produces the empty list, which is falsy in Python,
so no engine is initialised and `False` is returned: see the
counterexample.) -/
theorem c5_health_fallback (fetchResult : Option (List Rec)) (seed : Nat)
    (now : Int) (num_records : Nat) (h : 0 < num_records) :
    (load_data false fetchResult false seed now num_records).success = true ∧
    (load_data false fetchResult false seed now num_records).data
      = generate_grid_data seed now num_records ∧
    (load_data false fetchResult false seed now num_records).data.length
      = num_records ∧
    (load_data false fetchResult false seed now num_records).analytics
      = some (DataAnalytics.ofData (generate_grid_data seed now num_records)) := by
  have hlen : (generate_grid_data seed now num_records).length = num_records :=
    genRows_length (now - 365) (PyRandom.seedGen seed) num_records 0
  have hne : (generate_grid_data seed now num_records).isEmpty = false := by
    cases hg : generate_grid_data seed now num_records with
    | nil =>
      rw [hg] at hlen
      simp at hlen
      omega
    | cons a l => rfl
  have hload : load_data false fetchResult false seed now num_records
      = ⟨true, generate_grid_data seed now num_records,
         some (DataAnalytics.ofData (generate_grid_data seed now num_records))⟩ := by
    simp [load_data, hne]
  rw [hload]
  exact ⟨rfl, rfl, hlen, rfl⟩

/-- Witness for the amended C5 at one requested record. -/
theorem c5_health_fallback_witness :
    (load_data false none false 42 0 1).success = true ∧
    (load_data false none false 42 0 1).data = generate_grid_data 42 0 1 ∧
    (load_data false none false 42 0 1).data.length = 1 ∧
    (load_data false none false 42 0 1).analytics
      = some (DataAnalytics.ofData (generate_grid_data 42 0 1)) :=
  c5_health_fallback none 42 0 1 (by decide)

/-- Counterexample to C5 as stated: with the health check failing and zero
records requested, `load_data(0)` generates the requested zero mock records
but returns `False` and initialises no analytics engine, because the empty
list is falsy. -/
theorem c5_zero_records_counterexample :
    (load_data false none false 42 0 0).success = false ∧
    (load_data false none false 42 0 0).analytics = none := by
  exact ⟨rfl, rfl⟩

/-- Claim C9: every query of the analytics engine leaves its state — the
dataframe and the stored original records — exactly as constructed; in the
state-passing embedding each method returns the unchanged state. -/
theorem c9_queries_preserve_state (s : DataAnalytics) (column cat val : String)
    (f : AggFunc) (n : Nat) (asc : Bool) (conds : List (String × CondVal))
    (ps : List ℚ) :
    (s.get_summary_statisticsM).2 = s ∧
    (s.get_categorical_distributionM column).2 = s ∧
    (s.get_correlation_matrixM).2 = s ∧
    (s.aggregate_by_categoryM cat val f).2 = s ∧
    (s.get_top_nM column n asc).2 = s ∧
    (s.filter_dataM conds).2 = s ∧
    (s.get_percentilesM column ps).2 = s ∧
    (s.get_data_quality_reportM).2 = s :=
  ⟨rfl, rfl, rfl, rfl, rfl, rfl, rfl, rfl⟩

/-- The random state after one generated row does not depend on the base
date (the date enters no draw). -/
theorem genRow_state (i : Nat) (b1 b2 : Int) (g : PyRandom) :
    (genRow i b1 g).2 = (genRow i b2 g).2 := rfl

/-- The non-timestamp fields of one generated row do not depend on the base
date. -/
theorem genRow_dropTimestamp (i : Nat) (b1 b2 : Int) (g : PyRandom) :
    dropTimestamp (genRow i b1 g).1 = dropTimestamp (genRow i b2 g).1 := rfl

/-- The whole generation loop, timestamps erased, does not depend on the
base date. -/
theorem genRows_dropTimestamp (k : Nat) :
    ∀ (i : Nat) (b1 b2 : Int) (g : PyRandom),
      (genRows i b1 g k).map dropTimestamp
        = (genRows i b2 g k).map dropTimestamp := by
  induction k with
  | zero => intro i b1 b2 g; rfl
  | succ k ih =>
    intro i b1 b2 g
    show dropTimestamp (genRow i b1 g).1
          :: (genRows (i + 1) b1 (genRow i b1 g).2 k).map dropTimestamp
        = dropTimestamp (genRow i b2 g).1
          :: (genRows (i + 1) b2 (genRow i b2 g).2 k).map dropTimestamp
    rw [genRow_dropTimestamp i b1 b2 g, genRow_state i b1 b2 g,
      ih (i + 1) b1 b2 (genRow i b2 g).2]

/-- Amended claim C1: with the seed fixed, two runs of
`generate_grid_data` agree in every field of every record except
`timestamp`, whose base date is the wall clock at the time of the run; the
outputs are byte-identical exactly when both runs read the same clock. -/
theorem c1_seed_determinism_amended (seed : Nat) (now1 now2 : Int) (n : Nat) :
    (generate_grid_data seed now1 n).map dropTimestamp
      = (generate_grid_data seed now2 n).map dropTimestamp :=
  genRows_dropTimestamp n 0 (now1 - 365) (now2 - 365) (PyRandom.seedGen seed)

/-- Counterexample to C1 as stated: the same seed (42) and row count (1)
read at wall-clock days 0 and 1 give different record lists — the generated
`timestamp` field differs by a day. -/
theorem c1_wall_clock_counterexample :
    generate_grid_data 42 0 1 ≠ generate_grid_data 42 1 1 := by
  intro h
  have h2 : ((generate_grid_data 42 0 1).headD []).lookup "timestamp"
      = ((generate_grid_data 42 1 1).headD []).lookup "timestamp" := by rw [h]
  exact absurd h2 (by decide)

/-- Insertion grows the list by one. -/
theorem length_insertByKey (le : ℚ → ℚ → Bool) (key : α → ℚ) (x : α)
    (l : List α) : (insertByKey le key x l).length = l.length + 1 := by
  induction l with
  | nil => rfl
  | cons y ys ih =>
    unfold insertByKey
    by_cases hc : le (key x) (key y) = true
    · rw [if_pos hc]
      rfl
    · rw [if_neg hc, List.length_cons, List.length_cons, ih]

/-- Sorting preserves the length. -/
theorem length_sortByKey (le : ℚ → ℚ → Bool) (key : α → ℚ) (l : List α) :
    (sortByKey le key l).length = l.length := by
  induction l with
  | nil => rfl
  | cons x xs ih =>
    unfold sortByKey
    rw [length_insertByKey, ih]
    rfl

/-- Membership in an insertion. -/
theorem mem_insertByKey (le : ℚ → ℚ → Bool) (key : α → ℚ) (x a : α)
    (l : List α) : a ∈ insertByKey le key x l ↔ a = x ∨ a ∈ l := by
  induction l with
  | nil => simp [insertByKey]
  | cons y ys ih =>
    unfold insertByKey
    by_cases hc : le (key x) (key y) = true
    · rw [if_pos hc]
      simp [List.mem_cons]
    · rw [if_neg hc]
      simp only [List.mem_cons, ih]
      tauto

/-- Sorting permutes: same members. -/
theorem mem_sortByKey (le : ℚ → ℚ → Bool) (key : α → ℚ) (a : α) (l : List α) :
    a ∈ sortByKey le key l ↔ a ∈ l := by
  induction l with
  | nil => exact Iff.rfl
  | cons x xs ih =>
    unfold sortByKey
    rw [mem_insertByKey]
    simp [ih, List.mem_cons]

/-- Inserting into a key-sorted list keeps it key-sorted (for a total,
transitive comparison). -/
theorem pairwise_insertByKey (le : ℚ → ℚ → Bool) (key : α → ℚ)
    (htot : ∀ a b : ℚ, le a b = true ∨ le b a = true)
    (htrans : ∀ a b c : ℚ, le a b = true → le b c = true → le a c = true)
    (x : α) (l : List α)
    (hl : l.Pairwise (fun a b => le (key a) (key b) = true)) :
    (insertByKey le key x l).Pairwise (fun a b => le (key a) (key b) = true) := by
  induction l with
  | nil => simp [insertByKey]
  | cons y ys ih =>
    rcases List.pairwise_cons.mp hl with ⟨hy, hys⟩
    unfold insertByKey
    by_cases hc : le (key x) (key y) = true
    · rw [if_pos hc]
      refine List.pairwise_cons.mpr ⟨?_, hl⟩
      intro b hb
      rcases List.mem_cons.mp hb with rfl | hbys
      · exact hc
      · exact htrans _ _ _ hc (hy b hbys)
    · rw [if_neg hc]
      refine List.pairwise_cons.mpr ⟨?_, ih hys⟩
      intro b hb
      rcases (mem_insertByKey le key x b ys).mp hb with rfl | hbys
      · rcases htot (key b) (key y) with h1 | h2
        · exact absurd h1 hc
        · exact h2
      · exact hy b hbys

/-- The insertion sort is key-sorted. -/
theorem pairwise_sortByKey (le : ℚ → ℚ → Bool) (key : α → ℚ)
    (htot : ∀ a b : ℚ, le a b = true ∨ le b a = true)
    (htrans : ∀ a b c : ℚ, le a b = true → le b c = true → le a c = true)
    (l : List α) :
    (sortByKey le key l).Pairwise (fun a b => le (key a) (key b) = true) := by
  induction l with
  | nil => exact List.Pairwise.nil
  | cons x xs ih => exact pairwise_insertByKey le key htot htrans x _ ih

/-- Both requested orders are total. -/
theorem leOrd_total (asc : Bool) (a b : ℚ) :
    leOrd asc a b = true ∨ leOrd asc b a = true := by
  unfold leOrd
  cases asc <;> simp only [decide_eq_true_eq, Bool.false_eq_true, if_false, if_true]
  · exact le_total b a
  · exact le_total a b

/-- Both requested orders are transitive. -/
theorem leOrd_trans (asc : Bool) (a b c : ℚ) (h1 : leOrd asc a b = true)
    (h2 : leOrd asc b c = true) : leOrd asc a c = true := by
  unfold leOrd at h1 h2 ⊢
  cases asc <;>
    simp only [decide_eq_true_eq, Bool.false_eq_true, if_false, if_true] at h1 h2 ⊢
  · exact le_trans h2 h1
  · exact le_trans h1 h2

/-- The sort key of a returned record is the cell at the column's index. -/
theorem recKey_zip (cols : List String) (row : List Value) (c : String)
    (i : Nat) (h : colIdx cols c = some i) :
    recKeyQ c (cols.zip row) = rowKey i row := by
  unfold recKeyQ rowKey
  rw [lookup_zip_colIdx cols row c i h]

/-- Amended claim C3: for every table, every present NUMERIC column and
every `n`, `get_top_n` returns exactly `min n (number of rows)` records,
sorted by that column in the requested order (descending for
`ascending=False`, ascending for `ascending=True`).  On a present
non-numeric column `nlargest`/`nsmallest` raise `TypeError` instead: see the
counterexample. -/
theorem c3_top_n_sorted (t : Table) (column : String) (n : Nat) (asc : Bool)
    (hnum : isNumericCol t column = true) :
    ∃ l, Table.get_top_n t column n asc = .ok l ∧
      l.length = min n t.rows.length ∧
      l.Pairwise (fun a b => leOrd asc (recKeyQ column a) (recKeyQ column b) = true) := by
  cases hidx : colIdx t.cols column with
  | none =>
    unfold isNumericCol at hnum
    rw [hidx] at hnum
    exact absurd hnum (by simp)
  | some i =>
    refine ⟨recordsOf t.cols ((sortByKey (leOrd asc) (rowKey i) t.rows).take n),
      ?_, ?_, ?_⟩
    · unfold Table.get_top_n
      rw [hidx]
      simp [hnum]
    · unfold recordsOf
      rw [List.length_map, List.length_take, length_sortByKey]
    · have hp : (sortByKey (leOrd asc) (rowKey i) t.rows).Pairwise
          (fun a b => leOrd asc (rowKey i a) (rowKey i b) = true) :=
        pairwise_sortByKey _ _ (leOrd_total asc) (leOrd_trans asc) t.rows
      have hpt := hp.sublist (List.take_sublist n _)
      unfold recordsOf
      rw [List.pairwise_map]
      refine hpt.imp ?_
      intro a b hab
      rw [recKey_zip t.cols a column i hidx, recKey_zip t.cols b column i hidx]
      exact hab

/-- Witness for the amended C3 at a concrete numeric table. -/
theorem c3_top_n_sorted_witness :
    ∃ l, Table.get_top_n (tableOfRecords
        [[("v", Value.vInt 3)], [("v", Value.vInt 1)], [("v", Value.vInt 2)]])
        "v" 2 false = .ok l ∧
      l.length = min 2 (tableOfRecords
        [[("v", Value.vInt 3)], [("v", Value.vInt 1)], [("v", Value.vInt 2)]]).rows.length ∧
      l.Pairwise (fun a b => leOrd false (recKeyQ "v" a) (recKeyQ "v" b) = true) :=
  c3_top_n_sorted _ "v" 2 false (by decide)

/-- Counterexample to C3 as stated: on a present non-numeric column
`get_top_n` raises `TypeError` (pandas `nlargest` rejects object dtype)
instead of returning any records. -/
theorem c3_object_dtype_counterexample :
    exceptOk (Table.get_top_n (tableOfRecords [[("category", Value.vStr "A")]])
      "category" 1 false) = false := rfl

/-- Deduplication only returns members. -/
theorem mem_uniqBy [DecidableEq α] {a : α} {l : List α} (h : a ∈ uniqBy l) :
    a ∈ l := by
  induction l with
  | nil => exact absurd h (List.not_mem_nil a)
  | cons v vs ih =>
    unfold uniqBy at h
    rcases List.mem_cons.mp h with rfl | hmem
    · exact List.mem_cons_self ..
    · exact List.mem_cons_of_mem _ (ih (List.mem_filter.mp hmem).1)

/-- If every step returns normally, so does the whole loop. -/
theorem mapME_ok {f : α → Except String β} {l : List α}
    (h : ∀ x ∈ l, exceptOk (f x) = true) : exceptOk (mapME f l) = true := by
  induction l with
  | nil => rfl
  | cons x xs ih =>
    have hx := h x (List.mem_cons_self x xs)
    have hxs := ih fun a ha => h a (List.mem_cons_of_mem _ ha)
    cases hfx : f x with
    | error e =>
      rw [hfx] at hx
      exact absurd hx (by simp [exceptOk])
    | ok y =>
      cases hrest : mapME f xs with
      | error e =>
        rw [hrest] at hxs
        exact absurd hxs (by simp [exceptOk])
      | ok ys => simp only [mapME, hfx, hrest, exceptOk]

/-- Summing a nonempty list of numeric cells returns a numeric cell. -/
theorem vSum_ok {l : List Value} (hne : l ≠ [])
    (hnum : ∀ v ∈ l, isNumericVal v = true) :
    ∃ v, vSum l = .ok v ∧ isNumericVal v = true := by
  induction l with
  | nil => exact absurd rfl hne
  | cons x xs ih =>
    cases xs with
    | nil => exact ⟨x, rfl, hnum x (List.mem_cons_self ..)⟩
    | cons y ys =>
      obtain ⟨s, hs, hsnum⟩ :=
        ih (by simp) (fun v hv => hnum v (List.mem_cons_of_mem _ hv))
      have hx := hnum x (List.mem_cons_self ..)
      cases hxv : x with
      | vStr s0 =>
        rw [hxv] at hx
        exact absurd hx (by simp [isNumericVal])
      | vInt a =>
        cases hsv : s with
        | vStr s1 =>
          rw [hsv] at hsnum
          exact absurd hsnum (by simp [isNumericVal])
        | vInt b =>
          rw [hsv] at hs
          exact ⟨Value.vInt (a + b), by simp only [vSum, hs, vAdd], rfl⟩
        | vRat b =>
          rw [hsv] at hs
          exact ⟨Value.vRat ((a : ℚ) + b), by simp only [vSum, hs, vAdd], rfl⟩
      | vRat a =>
        cases hsv : s with
        | vStr s1 =>
          rw [hsv] at hsnum
          exact absurd hsnum (by simp [isNumericVal])
        | vInt b =>
          rw [hsv] at hs
          exact ⟨Value.vRat (a + (b : ℚ)), by simp only [vSum, hs, vAdd], rfl⟩
        | vRat b =>
          rw [hsv] at hs
          exact ⟨Value.vRat (a + b), by simp only [vSum, hs, vAdd], rfl⟩

/-- A numeric column read: every row has a numeric cell at the column's
index, and there is at least one row. -/
theorem isNumericCol_elim {t : Table} {c : String} {i : Nat}
    (hidx : colIdx t.cols c = some i) (hnum : isNumericCol t c = true) :
    t.rows ≠ [] ∧ ∀ r ∈ t.rows, ∃ v, r[i]? = some v ∧ isNumericVal v = true := by
  unfold isNumericCol at hnum
  rw [hidx, Bool.and_eq_true] at hnum
  obtain ⟨hne, hall⟩ := hnum
  refine ⟨?_, ?_⟩
  · intro hnil
    rw [hnil] at hne
    simp at hne
  · intro r hr
    have := List.all_eq_true.mp hall r hr
    cases hv : r[i]? with
    | none =>
      rw [hv] at this
      exact absurd this (by simp)
    | some v =>
      rw [hv] at this
      exact ⟨v, rfl, this⟩

/-- `get_top_n` returns normally when the column is absent or numeric. -/
theorem get_top_n_ok (t : Table) (c : String) (n : Nat) (asc : Bool)
    (h : t.cols.contains c = false ∨ isNumericCol t c = true) :
    exceptOk (Table.get_top_n t c n asc) = true := by
  rcases h with habs | hnum
  · unfold Table.get_top_n
    rw [(colIdx_none_iff _ _).mpr habs]
    rfl
  · cases hidx : colIdx t.cols c with
    | none =>
      unfold isNumericCol at hnum
      rw [hidx] at hnum
      exact absurd hnum (by simp)
    | some i =>
      unfold Table.get_top_n
      rw [hidx]
      simp [hnum, exceptOk]

/-- `get_percentiles` returns normally when the column is absent or numeric
and every requested percentile lies between 0 and 100. -/
theorem get_percentiles_ok (t : Table) (c : String) (ps : List ℚ)
    (h : t.cols.contains c = false ∨ isNumericCol t c = true)
    (hps : ∀ p ∈ ps, 0 ≤ p ∧ p ≤ 100) :
    exceptOk (Table.get_percentiles t c ps) = true := by
  rcases h with habs | hnum
  · unfold Table.get_percentiles
    rw [(colIdx_none_iff _ _).mpr habs]
    rfl
  · cases hidx : colIdx t.cols c with
    | none =>
      unfold isNumericCol at hnum
      rw [hidx] at hnum
      exact absurd hnum (by simp)
    | some i =>
      unfold Table.get_percentiles
      rw [hidx]
      refine mapME_ok ?_
      intro p hp
      have hr := hps p hp
      have hrange : 0 ≤ p / 100 ∧ p / 100 ≤ 1 :=
        ⟨div_nonneg hr.1 (by norm_num), (div_le_one (by norm_num)).mpr hr.2⟩
      simp only [hnum, if_true, if_pos hrange, exceptOk]

/-- `aggregate_by_category` returns normally when the value column is
absent or numeric (for every aggregation function). -/
theorem aggregate_by_category_ok (t : Table) (cat val : String) (f : AggFunc)
    (h : t.cols.contains val = false ∨ isNumericCol t val = true) :
    exceptOk (Table.aggregate_by_category t cat val f) = true := by
  rcases h with habs | hnum
  · have hidx : colIdx t.cols val = none := (colIdx_none_iff _ _).mpr habs
    unfold Table.aggregate_by_category
    rw [hidx]
    cases colIdx t.cols cat <;> rfl
  · cases hvidx : colIdx t.cols val with
    | none =>
      unfold isNumericCol at hnum
      rw [hvidx] at hnum
      exact absurd hnum (by simp)
    | some vi =>
      obtain ⟨-, hall⟩ := isNumericCol_elim hvidx hnum
      cases hcidx : colIdx t.cols cat with
      | none =>
        unfold Table.aggregate_by_category
        rw [hcidx, hvidx]
        rfl
      | some ci =>
        unfold Table.aggregate_by_category
        rw [hcidx, hvidx]
        refine mapME_ok ?_
        intro k hk
        obtain ⟨r0, hr0mem, hr0⟩ := List.mem_filterMap.mp (mem_uniqBy hk)
        have hr0grp : r0 ∈ t.rows.filter (fun r => decide (r[ci]? = some k)) :=
          List.mem_filter.mpr ⟨hr0mem, by simp [hr0]⟩
        obtain ⟨v0, hv0, -⟩ := hall r0 hr0mem
        have hv0mem : v0 ∈ (t.rows.filter
            (fun r => decide (r[ci]? = some k))).filterMap (fun r => r[vi]?) :=
          List.mem_filterMap.mpr ⟨r0, hr0grp, hv0⟩
        have hvalsne : (t.rows.filter
            (fun r => decide (r[ci]? = some k))).filterMap (fun r => r[vi]?) ≠ [] :=
          List.ne_nil_of_mem hv0mem
        have hvalsnum : ∀ v ∈ (t.rows.filter
            (fun r => decide (r[ci]? = some k))).filterMap (fun r => r[vi]?),
            isNumericVal v = true := by
          intro v hv
          obtain ⟨r, hrgrp, hrv⟩ := List.mem_filterMap.mp hv
          obtain ⟨w, hw, hwnum⟩ := hall r (List.mem_filter.mp hrgrp).1
          rw [hw] at hrv
          cases hrv
          exact hwnum
        cases f with
        | sum =>
          obtain ⟨v, hv, -⟩ := vSum_ok hvalsne hvalsnum
          simp only [aggApply, hv, exceptOk]
        | count => rfl
        | mean =>
          have : ((t.rows.filter (fun r => decide (r[ci]? = some k))).filterMap
              (fun r => r[vi]?)).all isNumericVal = true :=
            List.all_eq_true.mpr hvalsnum
          simp only [aggApply, this, if_true, exceptOk]

/-- Amended claim C7: `get_summary_statistics`, `get_categorical_distribution`
and `filter_data` are total (their embeddings return plain values), and the
three fallible operations return normally whenever the named value column is
absent or numeric and the requested percentiles lie between 0 and 100; on a
present non-numeric column `get_top_n` and `get_percentiles` raise
`TypeError` (see the counterexample), as does `aggregate_by_category` for a
numeric aggregation of a non-numeric column. -/
theorem c7_totality_amended (t : Table) (c1 c2 cat : String) (n : Nat)
    (asc : Bool) (f : AggFunc) (ps : List ℚ)
    (h1 : t.cols.contains c1 = false ∨ isNumericCol t c1 = true)
    (h2 : t.cols.contains c2 = false ∨ isNumericCol t c2 = true)
    (hps : ∀ p ∈ ps, 0 ≤ p ∧ p ≤ 100) :
    exceptOk (Table.get_top_n t c1 n asc) = true ∧
    exceptOk (Table.get_percentiles t c2 ps) = true ∧
    exceptOk (Table.aggregate_by_category t cat c2 f) = true :=
  ⟨get_top_n_ok t c1 n asc h1, get_percentiles_ok t c2 ps h2 hps,
   aggregate_by_category_ok t cat c2 f h2⟩

/-- Witness for the amended C7 at a concrete numeric table. -/
theorem c7_totality_amended_witness :
    exceptOk (Table.get_top_n (tableOfRecords [[("v", Value.vInt 1)]]) "v" 3 true) = true ∧
    exceptOk (Table.get_percentiles (tableOfRecords [[("v", Value.vInt 1)]]) "v" [25]) = true ∧
    exceptOk (Table.aggregate_by_category (tableOfRecords [[("v", Value.vInt 1)]])
      "v" "v" .mean) = true :=
  c7_totality_amended _ "v" "v" "v" 3 true .mean [25]
    (by decide) (by decide) (by decide)

/-- Counterexample to C7 as stated: `get_percentiles` on a present
non-numeric column raises `TypeError` (`Series.quantile` rejects object
dtype) instead of returning a mapping. -/
theorem c7_object_dtype_counterexample :
    exceptOk (Table.get_percentiles (tableOfRecords [[("c", Value.vStr "A")]])
      "c" [25]) = false := rfl
